import Mathlib

/-!
# Verification of the scip-go file visitor and version inferrer

A shallow embedding of the file-visitor core (`internal/visitors/visitor_file.go`),
the local-symbol signature builder (`lookup.Local.SignatureText`) and the git
module-version inferrer (`git.InferModuleVersion`).  Go maps keyed by positions
or package identifiers are embedded as association lists with replace-on-insert
semantics; the collaborator packages that are not part of the verified sources
(`handler`, `symbols`, `command`, the scip wire types) are modelled from the
specification where noted.  `panic` and the strict-mode error handler are
embedded as the error case of `Except`.
-/

namespace ScipGo

/-- `token.Pos`: an opaque file-set offset. -/
abbrev Pos := Nat

/-- `newtypes.PackageID`: an opaque stable handle for a loaded package. -/
abbrev PackageID := String

/-- `token.Position`: the resolved (1-based) line/column of a `token.Pos`,
as produced by `Fset.Position`. -/
structure Position where
  line : Nat
  col : Nat
deriving DecidableEq, Repr

/-- A reference to a `types.Package`: its import path together with the
`PackageID` that `newtypes.GetID` / `newtypes.GetFromTypesPackage` derive
from it (the spec requires both derivations to agree for one package). -/
structure PkgRef where
  path : String
  pkgID : PackageID
deriving DecidableEq, Repr

/-- The dynamic class of a `types.Object` that the visitor distinguishes:
`*types.Const`, `*types.Var`, `*types.PkgName` (with its `Imported()`
package, `none` embedding a nil pointer) and every other object kind. -/
inductive ObjKind where
  | constObj
  | varObj
  | pkgNameObj (imported : Option PkgRef)
  | otherObj
deriving DecidableEq, Repr

/-- A `types.Object`: its `Name()`, declaring `Pos()`, dynamic kind and the
rendering `Type().String()` of its static type (`none` embeds a nil type). -/
structure Obj where
  name : String
  pos : Pos
  kind : ObjKind
  typeStr : Option String
deriving DecidableEq, Repr

/-- Association-list lookup; embeds Go map indexing `m[k]`. -/
def lookupA {α β : Type} [DecidableEq α] : List (α × β) → α → Option β
  | [], _ => none
  | (k', v') :: rest, k => if k' = k then some v' else lookupA rest k

/-- Association-list insertion with replacement; embeds Go map assignment
`m[k] = v` (at most one binding per key). -/
def insertA {α β : Type} [DecidableEq α] : List (α × β) → α → β → List (α × β)
  | [], k, v => [(k, v)]
  | (k', v') :: rest, k, v =>
      if k' = k then (k, v) :: rest else (k', v') :: insertA rest k v

/-- `lookup.Local`: a minted local symbol together with the object it was
minted for (the object pointer may be nil). -/
structure Local where
  symbol : String
  obj : Option Obj
deriving DecidableEq, Repr

/-- `lookup.Local.SignatureText`, translated from the source: keyword part
chosen by the object's dynamic type, then the non-empty name, then either the
imported package's path (package aliases) or the non-empty type string. -/
def Local.SignatureText (l : Local) : String :=
  match l.obj with
  | none => ""
  | some obj =>
    let parts : List String :=
      match obj.kind with
      | .constObj => ["const"]
      | .pkgNameObj _ => ["import"]
      | .varObj => ["var"]
      | .otherObj => []
    let parts := if obj.name ≠ "" then parts ++ [obj.name] else parts
    let parts :=
      match obj.kind with
      | .pkgNameObj imported =>
        match imported with
        | some r => parts ++ [r.path]
        | none => parts
      | _ =>
        match obj.typeStr with
        | some ts => if ts ≠ "" then parts ++ [ts] else parts
        | none => parts
    String.intercalate " " parts

/-- `scip.SymbolRole_Definition` as used for `scip.Occurrence.SymbolRoles`. -/
def symbolDefinition : Nat := 1

/-- `scip.SymbolRole_ReadAccess` as used for `scip.Occurrence.SymbolRoles`. -/
def symbolReference : Nat := 8

/-- `scip.Occurrence`: range, symbol, role bits and optional
override documentation. -/
structure Occurrence where
  range : List Nat
  symbol : String
  symbolRoles : Nat
  overrideDocumentation : List String
deriving DecidableEq, Repr

/-- Is this occurrence a definition occurrence? -/
def isDefinitionOcc (o : Occurrence) : Bool :=
  o.symbolRoles == symbolDefinition

/-- `scip.SymbolInformation` as populated by `ToScipDocument`: symbol,
display name and the text of the optional signature documentation. -/
structure SymbolInformation where
  symbol : String
  displayName : String
  signatureText : Option String
deriving DecidableEq, Repr

/-- `scip.Document` as populated by `ToScipDocument`. -/
structure ScipDocument where
  language : String
  relativePath : String
  occurrences : List Occurrence
  symbols : List SymbolInformation
deriving DecidableEq, Repr

/-- The mutable per-file state of `fileVisitor`: the `locals` map keyed by
definition position, the two override maps (`caseClauses` lives in the
read-only context because the visitor never writes it after construction),
the occurrence list, and the errors recorded by the lenient error handler. -/
structure VState where
  locals : List (Pos × Local)
  pkgNameOverride : List (PackageID × String)
  occurrences : List Occurrence
  errors : List String
deriving DecidableEq, Repr

/-- The read-only data a `fileVisitor` consults while walking one file:
the error-handler mode, the file set (`posmap` embeds `Fset.Position`), the
name-resolution maps `Defs`/`Uses`/`TypeOf` keyed by identifier position, the
case-clause override map built by `NewFileVisitor`, the package's import map,
and the symbol tables (`lookup.Package` and `lookup.Global`). -/
structure Ctx where
  strict : Bool
  posmap : Pos → Position
  defs : Pos → Option Obj
  uses : Pos → Option Obj
  typeOf : Pos → Option String
  caseClauses : List (Pos × Obj)
  imports : String → Option PkgRef
  pkgSymbols : Pos → Option String
  globalGetSymbol : Pos → Option String
  getPkgNameSymbolByID : PackageID → Option String
  getPkgNameSymbol : PackageID → Option String
  getSymbolOfObject : Obj → Except String (Option String)

/-- Modelled from the spec: the error handler `err_or_panic` aborts in strict
mode and records the error and continues in lenient mode (§6/§7); the
`handler` package is not part of the provided sources. -/
def errOrPanic (ctx : Ctx) (st : VState) (msg : String) : Except String VState :=
  if ctx.strict then .error msg
  else .ok { st with errors := st.errors ++ [msg] }

/-- `fileVisitor.createNewLocalSymbol`, translated from the source: panics
(embedded as `.error`) when the position already owns a local, otherwise
mints `"local N"` with `N = len(v.locals)` and records it. -/
def createNewLocalSymbol (st : VState) (pos : Pos) (obj : Option Obj) :
    Except String (String × VState) :=
  match lookupA st.locals pos with
  | some _ =>
      .error "Cannot create a new local symbol for an ident that has already been created"
  | none =>
      let symbol := "local " ++ toString st.locals.length
      .ok (symbol, { st with locals := insertA st.locals pos ⟨symbol, obj⟩ })

/-- Modelled from the spec: ranges cover the identifier token exactly and are
0-based single-line `[start_line, start_col, end_col]` triples computed from
the identifier's position plus its textual length (§3, §4.3); the helper
`scipRange` is not part of the provided sources. -/
def scipRange (p : Position) (obj : Obj) : List Nat :=
  [p.line - 1, p.col - 1, p.col - 1 + obj.name.length]

/-- Modelled from the spec: `symbols.RangeFromName` (not part of the provided
sources) produces the 0-based range of a written name; for import-path
references the range spans the path literal minus the surrounding quotes,
shifting the start one column past the opening quote (§4.3).  The source's
guard against a nil result is unreachable here. -/
def RangeFromName (p : Position) (name : String) (skipQuote : Bool) : List Nat :=
  if skipQuote then [p.line - 1, p.col, p.col + name.length]
  else [p.line - 1, p.col - 1, p.col - 1 + name.length]

/-- Modelled from the spec: `symbols.FormatCode` (not part of the provided
sources) renders a type string as a formatted documentation line (§3). -/
def FormatCode (code : String) : String :=
  "```go\n" ++ code ++ "\n```"

/-- `fileVisitor.NewDefinition`, translated from the source: append a
definition occurrence. -/
def newDefinition (st : VState) (symbol : String) (rng : List Nat) : VState :=
  { st with occurrences := st.occurrences ++ [⟨rng, symbol, symbolDefinition, []⟩] }

/-- `fileVisitor.AppendSymbolReference`, translated from the source: append a
reference occurrence, attaching a formatted override-documentation line when
a non-nil override type with a non-empty rendering is supplied. -/
def appendSymbolReference (st : VState) (symbol : String) (rng : List Nat)
    (overrideType : Option String) : VState :=
  let documentation : List String :=
    match overrideType with
    | some ty => if ty ≠ "" then [FormatCode ty] else []
    | none => []
  { st with occurrences := st.occurrences ++ [⟨rng, symbol, symbolReference, documentation⟩] }

/-- `strings.Trim(s, "\"")`: drop every leading and trailing quote. -/
def trimQuote (s : String) : String :=
  String.mk (((s.data.dropWhile (· == '\"')).reverse.dropWhile (· == '\"')).reverse)

/-- The fragment of `go/ast` the visitor dispatches on: identifiers, import
declarations (local name, quoted path literal and its position), selector
expressions, the file root (doc comment, then declarations; the package-name
identifier is not part of the tree, matching the source's skip), and every
other node kind, which the visitor's `switch` falls through and whose
children `ast.Walk` visits with the same visitor. -/
inductive Node where
  | ident (name : String) (pos : Pos)
  | importSpec (localName : Option (String × Pos)) (pathValue : String) (pathPos : Pos)
  | selector (x : Node) (sel : Node)
  | fileNode (doc : Option Node) (decls : List Node)
  | other (children : List Node)

/-- The "Emit Reference" block of the `*ast.Ident` arm of
`fileVisitor.Visit`, translated from the source, for a using identifier at
`pos` that `Uses` resolves to `r`: prefer the file-local minted at the
referent's position, attaching the reference's own static type as override
documentation when that position is a case-clause override site; otherwise
resolve through the global index by object, reporting failures through the
error handler (which, in lenient mode, skips the reference). -/
def visitIdentRef (ctx : Ctx) (st1 : VState) (pos : Pos) (r : Obj) :
    Except String VState :=
  let position := ctx.posmap pos
  match lookupA st1.locals r.pos with
  | some loc =>
    let overrideType :=
      if (lookupA ctx.caseClauses r.pos).isSome then ctx.typeOf pos else none
    .ok (appendSymbolReference st1 loc.symbol (scipRange position r) overrideType)
  | none =>
    match ctx.getSymbolOfObject r with
    | .error e => errOrPanic ctx st1 ("Unable to find symbol of object: " ++ e)
    | .ok none => .ok st1
    | .ok (some s) => .ok (appendSymbolReference st1 s (scipRange position r) none)

/-- The `*ast.Ident` arm of `fileVisitor.Visit`, translated from the source:
skip blanks; short-circuit case-clause overrides into a fresh local
definition; otherwise emit a definition (package table, then global index,
then fresh local) for a `Defs` entry and a reference (`visitIdentRef`) for a
`Uses` entry, reporting identifiers with neither. -/
def visitIdent (ctx : Ctx) (st : VState) (name : String) (pos : Pos) :
    Except String VState :=
  if name = "_" then .ok st
  else
    let position := ctx.posmap pos
    match lookupA ctx.caseClauses pos with
    | some obj =>
      match createNewLocalSymbol st obj.pos (some obj) with
      | .error e => .error e
      | .ok (symName, st1) => .ok (newDefinition st1 symName (scipRange position obj))
    | none =>
      let defRes : Except String (VState × Option Obj) :=
        match ctx.defs pos with
        | some d =>
          match ctx.pkgSymbols d.pos with
          | some s => .ok (newDefinition st s (scipRange position d), some d)
          | none =>
            match ctx.globalGetSymbol d.pos with
            | some s => .ok (newDefinition st s (scipRange position d), some d)
            | none =>
              match createNewLocalSymbol st d.pos (some d) with
              | .error e => .error e
              | .ok (symName, st1) =>
                  .ok (newDefinition st1 symName (scipRange position d), some d)
        | none => .ok (st, none)
      match defRes with
      | .error e => .error e
      | .ok (st1, defObj) =>
        match ctx.uses pos with
        | some r => visitIdentRef ctx st1 pos r
        | none =>
          match defObj with
          | some _ => .ok st1
          | none => errOrPanic ctx st1 ("Neither def nor ref found: " ++ name)

/-- `fileVisitor.emitImportReference`, translated from the source: emit a
reference at the import-path literal pointing at the imported package's
package-name symbol, reporting a missing symbol through the error handler. -/
def emitImportReference (ctx : Ctx) (st : VState) (position : Position)
    (ipkg : PkgRef) : Except String VState :=
  let rng := RangeFromName position ipkg.path true
  match ctx.getPkgNameSymbol ipkg.pkgID with
  | none => errOrPanic ctx st ("Missing symbol information for package: " ++ ipkg.path)
  | some s => .ok (appendSymbolReference st s rng none)

/-- The `*ast.ImportSpec` arm of `fileVisitor.Visit`, translated from the
source: skip unresolved imports; for a local name other than `.` mint a local
symbol for `Defs[node.Name]`, emit its definition occurrence and record the
package-name override; then emit the import-path reference. -/
def visitImportSpec (ctx : Ctx) (st : VState) (localName : Option (String × Pos))
    (pathValue : String) (pathPos : Pos) : Except String VState :=
  match ctx.imports (trimQuote pathValue) with
  | none => .ok st
  | some ipkg =>
    let step1 : Except String VState :=
      match localName with
      | some (nm, npos) =>
        if nm = "." then .ok st
        else
          match createNewLocalSymbol st npos (ctx.defs npos) with
          | .error e => .error e
          | .ok (symName, st1) =>
            let st2 := newDefinition st1 symName (RangeFromName (ctx.posmap npos) nm false)
            .ok { st2 with pkgNameOverride := insertA st2.pkgNameOverride ipkg.pkgID symName }
      | none => .ok st
    match step1 with
    | .error e => .error e
    | .ok st2 => emitImportReference ctx st2 (ctx.posmap pathPos) ipkg

mutual

/-- `ast.Walk` driving `fileVisitor.Visit`, translated from the source.
Identifiers and import declarations end their subtree; a selector whose
qualifier resolves to a `*types.PkgName` emits the qualifier reference
(override map first, then the global package-name symbol, else the error
handler) and walks only the selected name; the file root walks its doc
comment and then its declarations (the `walkDeclList` helper, outside the
provided sources, walks each declaration in order); every other node is
walked into. -/
def walk (ctx : Ctx) (st : VState) : Node → Except String VState
  | .ident name pos => visitIdent ctx st name pos
  | .importSpec localName pathValue pathPos =>
      visitImportSpec ctx st localName pathValue pathPos
  | .selector x sel =>
    match x with
    | .ident _xname xpos =>
      match ctx.uses xpos with
      | some u =>
        match u.kind with
        | .pkgNameObj imported =>
          match imported with
          | none => .error "GetFromTypesPackage: nil imported package"
          | some r =>
            let position := ctx.posmap xpos
            match lookupA st.pkgNameOverride r.pkgID with
            | some ov =>
                walk ctx (appendSymbolReference st ov (scipRange position u) none) sel
            | none =>
              match ctx.getPkgNameSymbolByID r.pkgID with
              | some s =>
                  walk ctx (appendSymbolReference st s (scipRange position u) none) sel
              | none => errOrPanic ctx st ("Missing symbol for package: " ++ r.path)
        | _ =>
          match walk ctx st x with
          | .error e => .error e
          | .ok st1 => walk ctx st1 sel
      | none =>
        match walk ctx st x with
        | .error e => .error e
        | .ok st1 => walk ctx st1 sel
    | _ =>
      match walk ctx st x with
      | .error e => .error e
      | .ok st1 => walk ctx st1 sel
  | .fileNode doc decls =>
    match doc with
    | some d =>
      match walk ctx st d with
      | .error e => .error e
      | .ok st1 => walkList ctx st1 decls
    | none => walkList ctx st decls
  | .other children => walkList ctx st children

/-- Walking a list of sibling nodes in order, left to right. -/
def walkList (ctx : Ctx) (st : VState) : List Node → Except String VState
  | [] => .ok st
  | n :: rest =>
    match walk ctx st n with
    | .error e => .error e
    | .ok st1 => walkList ctx st1 rest

end

/-- The case-clause override map built by `NewFileVisitor`, translated from
the source: fold `pkg.TypesInfo.Implicits` (each entry flagged with whether
its key is an `*ast.CaseClause`), keying each implicit object by the object's
own position; duplicate keys are overwritten as in a Go map. -/
def buildCaseClauses (implicits : List (Bool × Obj)) : List (Pos × Obj) :=
  implicits.foldl (fun m io => if io.1 then insertA m io.2.pos io.2 else m) []

/-- The initial visitor state built by `NewFileVisitor`, translated from the
source: empty locals and overrides, and the occurrence list seeded with the
document's package occurrence. -/
def NewFileVisitor (pkgOccurrence : Occurrence) : VState :=
  ⟨[], [], [pkgOccurrence], []⟩

/-- The `scip.SymbolInformation` synthesized for one minted local by
`fileVisitor.ToScipDocument`, translated from the source. -/
def localSymbolInformation (l : Local) : SymbolInformation :=
  match l.obj with
  | none => ⟨l.symbol, "", none⟩
  | some o =>
    let txt := Local.SignatureText l
    ⟨l.symbol, o.name, if txt = "" then none else some txt⟩

/-- `fileVisitor.ToScipDocument`, translated from the source: the document
combines the file's package-scope symbol metadata with one synthesized entry
per minted local.  The source iterates the Go map `v.locals` with `range`,
whose order is unspecified, so the enumeration order is an explicit argument
(valid when it is a permutation of the minted locals). -/
def ToScipDocument (st : VState) (relativePath : String)
    (fileSymbols : List SymbolInformation) (localsOrder : List (Pos × Local)) :
    ScipDocument :=
  ⟨"go", relativePath, st.occurrences,
   fileSymbols ++ localsOrder.map (fun pl => localSymbolInformation pl.2)⟩

/-- `strings.Split` with a one-character separator: the result always has at
least one element, and splitting the empty string yields `[""]`. -/
def splitOnCharAux (c : Char) : List Char → List (List Char)
  | [] => [[]]
  | ch :: rest =>
    let acc := splitOnCharAux c rest
    if ch = c then [] :: acc
    else
      match acc with
      | [] => [[ch]]
      | g :: gs => (ch :: g) :: gs

/-- `strings.Split(s, sep)` for a one-character separator `c`. -/
def splitOnChar (c : Char) (s : String) : List String :=
  (splitOnCharAux c s.data).map String.mk

/-- A digits-only non-empty component of a version core. -/
def isNumericPart (s : String) : Bool :=
  s ≠ "" && s.data.all Char.isDigit

/-- Models the acceptance of `semver.NewVersion` from the external
`Masterminds/semver` dependency: an optional leading `v`, a core of one to
three dot-separated numeric parts, and optional pre-release (`-…`) and
build-metadata (`+…`) suffixes.  In particular the empty string and plain
words are rejected. -/
def isSemverTag (s : String) : Bool :=
  let s1 := match s.data with
    | 'v' :: rest => String.mk rest
    | _ => s
  let beforeMeta := match splitOnChar '+' s1 with
    | x :: _ => x
    | [] => s1
  let core := match splitOnChar '-' beforeMeta with
    | x :: _ => x
    | [] => beforeMeta
  match splitOnChar '.' core with
  | [a] => isNumericPart a
  | [a, b] => isNumericPart a && isNumericPart b
  | [a, b, c] => isNumericPart a && isNumericPart b && isNumericPart c
  | _ => false

/-- `git.InferModuleVersion`, translated from the source.  The collaborator
`command.Run` is not part of the provided sources, so each git invocation's
outcome (its output, and its error when it failed) is passed as an explicit
argument: `tagsOut`/`tagsErr` for `git tag -l --points-at HEAD` and
`commitOut`/`commitErr` for `git rev-parse HEAD`.  The source splits the tag
output on newlines, returns the first line `semver.NewVersion` accepts, else
the first line when any line exists, else the first 12 bytes of the commit
hash. -/
def InferModuleVersion (tagsOut : String) (tagsErr : Option String)
    (commitOut : String) (commitErr : Option String) : Except String String :=
  match tagsErr with
  | some e => .error ("failed to tags for current commit: " ++ e ++ "\n" ++ tagsOut)
  | none =>
    let lines := splitOnChar '\n' tagsOut
    match lines.find? isSemverTag with
    | some tag => .ok tag
    | none =>
      match lines with
      | t :: _ => .ok t
      | [] =>
        match commitErr with
        | some e => .error ("failed to get current commit: " ++ e ++ "\n" ++ commitOut)
        | none => .ok (String.mk (commitOut.data.take 12))

/-! ## Spec-side restatements used for refinement comparisons -/

/-- The definition-site symbol choice as the spec words it: the package
symbol table first, then the global index, then a freshly minted
`local N` where `N` is the number of locals minted so far. -/
def selectDefSymbol (ctx : Ctx) (st : VState) (d : Obj) : String :=
  match ctx.pkgSymbols d.pos with
  | some s => s
  | none =>
    match ctx.globalGetSymbol d.pos with
    | some s => s
    | none => "local " ++ toString st.locals.length

/-- The signature keyword as the spec words it: `const` for constants,
`var` for variables, `import` for package aliases, empty otherwise. -/
def signatureKeyword (o : Obj) : String :=
  match o.kind with
  | .constObj => "const"
  | .varObj => "var"
  | .pkgNameObj _ => "import"
  | .otherObj => ""

/-- The final signature component as the spec words it: the imported
package's path for package aliases, otherwise the rendering of the entity's
static type (empty when absent, to be dropped by the join). -/
def signatureTail (o : Obj) : String :=
  match o.kind with
  | .pkgNameObj imported =>
    match imported with
    | some r => r.path
    | none => ""
  | _ =>
    match o.typeStr with
    | some ts => ts
    | none => ""

/-! ## Concrete scenarios -/

/-- The implicit per-case variable of the `case *T` clause of
`switch v := x.(type)`: `go/types` positions it at the guard's `v`. -/
def c1CaseObj : Obj := ⟨"v", 10, .varObj, some "*T"⟩

/-- The implicit per-case variable of the `default` clause: same written
name, same guard position, scrutinee type. -/
def c1DefaultObj : Obj := ⟨"v", 10, .varObj, some "any"⟩

/-- Resolution data for the two-clause type switch
`switch v := x.(type) + case *T: v.f() + default: v.g()`. -/
def c1Ctx : Ctx :=
  { strict := false
    posmap := fun p => ⟨1, p⟩
    defs := fun _ => none
    uses := fun p =>
      if p = 12 then some ⟨"x", 2, .varObj, some "any"⟩
      else if p = 20 then some ⟨"T", 100, .otherObj, none⟩
      else if p = 30 then some c1CaseObj
      else if p = 32 then some ⟨"f", 101, .otherObj, some "func()"⟩
      else if p = 40 then some c1DefaultObj
      else if p = 42 then some ⟨"g", 102, .otherObj, some "func()"⟩
      else none
    typeOf := fun p => if p = 30 then some "*T" else if p = 40 then some "any" else none
    caseClauses := buildCaseClauses [(true, c1CaseObj), (true, c1DefaultObj)]
    imports := fun _ => none
    pkgSymbols := fun _ => none
    globalGetSymbol := fun _ => none
    getPkgNameSymbolByID := fun _ => none
    getPkgNameSymbol := fun _ => none
    getSymbolOfObject := fun o =>
      if o.name = "x" then .ok (some "xSym")
      else if o.name = "T" then .ok (some "TSym")
      else if o.name = "f" then .ok (some "fSym")
      else if o.name = "g" then .ok (some "gSym")
      else .ok none }

/-- The syntax tree of the two-clause type switch: the guard assignment
`v := x.(type)`, then the `case *T` clause (type list, then `v.f()`), then
the `default` clause (`v.g()`). -/
def c1SwitchNode : Node :=
  .other
    [ .other [.ident "v" 10, .other [.ident "x" 12]]
    , .other
        [ .other [.other [.ident "T" 20], .other [.selector (.ident "v" 30) (.ident "f" 32)]]
        , .other [.other [.selector (.ident "v" 40) (.ident "g" 42)]] ] ]

/-- Resolution data for a file with a blank import `import _ "a/b"` and an
assignment `_ = x`. -/
def c2Ctx : Ctx :=
  { strict := false
    posmap := fun p => ⟨1, p⟩
    defs := fun p =>
      if p = 5 then some ⟨"_", 5, .pkgNameObj (some ⟨"a/b", "pid-ab"⟩), none⟩ else none
    uses := fun p => if p = 7 then some ⟨"x", 2, .varObj, some "int"⟩ else none
    typeOf := fun _ => none
    caseClauses := []
    imports := fun s => if s = "a/b" then some ⟨"a/b", "pid-ab"⟩ else none
    pkgSymbols := fun _ => none
    globalGetSymbol := fun _ => none
    getPkgNameSymbolByID := fun _ => none
    getPkgNameSymbol := fun p => if p = "pid-ab" then some "abPkgNameSym" else none
    getSymbolOfObject := fun o => if o.name = "x" then .ok (some "xSym") else .ok none }

/-- A visitor state holding two minted locals, as left behind by any file
that mints two locals (for instance two renamed imports). -/
def c3State : VState :=
  ⟨[(1, ⟨"local 0", none⟩), (2, ⟨"local 1", none⟩)], [], [], []⟩

/-- One enumeration order of `c3State.locals` a Go map `range` may produce. -/
def c3OrderA : List (Pos × Local) :=
  [(1, ⟨"local 0", none⟩), (2, ⟨"local 1", none⟩)]

/-- The other enumeration order of `c3State.locals`. -/
def c3OrderB : List (Pos × Local) :=
  [(2, ⟨"local 1", none⟩), (1, ⟨"local 0", none⟩)]

/-- Resolution data for C5: position 5 carries a blank identifier that
`Defs` maps to an entity (as `go/types` records for `_ := …`), position 6 a
normal one. -/
def c5Ctx : Ctx :=
  { strict := false
    posmap := fun p => ⟨1, p⟩
    defs := fun p =>
      if p = 5 then some ⟨"_", 5, .varObj, some "int"⟩
      else if p = 6 then some ⟨"y", 6, .varObj, some "int"⟩
      else none
    uses := fun _ => none
    typeOf := fun _ => none
    caseClauses := []
    imports := fun _ => none
    pkgSymbols := fun _ => none
    globalGetSymbol := fun _ => none
    getPkgNameSymbolByID := fun _ => none
    getPkgNameSymbol := fun _ => none
    getSymbolOfObject := fun _ => .ok none }

/-- The `*types.PkgName` entity of the renamed import `import foo "a/b"`,
declared at the alias and referenced at every qualifier. -/
def c6FooObj : Obj := ⟨"foo", 5, .pkgNameObj (some ⟨"a/b", "pid-ab"⟩), none⟩

/-- The package occurrence `NewFileVisitor` seeds the document with. -/
def c6PkgOcc : Occurrence := ⟨[0, 0, 4], "pkgSym", symbolDefinition, []⟩

/-- Resolution data for `import foo "a/b"` followed by `foo.Bar()`.  The
global index also knows a package-name symbol for the package, distinct from
the minted local, so the emitted qualifier symbol shows which of the two the
visitor consulted first. -/
def c6Ctx : Ctx :=
  { strict := false
    posmap := fun p => ⟨1, p⟩
    defs := fun p => if p = 5 then some c6FooObj else none
    uses := fun p =>
      if p = 30 then some c6FooObj
      else if p = 34 then some ⟨"Bar", 200, .otherObj, some "func()"⟩
      else none
    typeOf := fun _ => none
    caseClauses := []
    imports := fun s => if s = "a/b" then some ⟨"a/b", "pid-ab"⟩ else none
    pkgSymbols := fun _ => none
    globalGetSymbol := fun _ => none
    getPkgNameSymbolByID := fun p => if p = "pid-ab" then some "abGlobalQualifierSym" else none
    getPkgNameSymbol := fun p => if p = "pid-ab" then some "abPkgNameSym" else none
    getSymbolOfObject := fun o => if o.name = "Bar" then .ok (some "BarSym") else .ok none }

/-- The file of the renamed-import scenario: the import declaration, then
the call `foo.Bar()`. -/
def c6File : Node :=
  .fileNode none
    [ .other [.importSpec (some ("foo", 5)) "\"a/b\"" 9]
    , .other [.selector (.ident "foo" 30) (.ident "Bar" 34)] ]

/-- Resolution data for the C7 witness: the qualifier at position 4 resolves
to a package name whose `PackageID` has neither an override nor a global
package-name symbol. -/
def c7Ctx : Ctx :=
  { strict := false
    posmap := fun p => ⟨1, p⟩
    defs := fun _ => none
    uses := fun p =>
      if p = 4 then some ⟨"q", 50, .pkgNameObj (some ⟨"m/n", "pid-mn"⟩), none⟩ else none
    typeOf := fun _ => none
    caseClauses := []
    imports := fun _ => none
    pkgSymbols := fun _ => none
    globalGetSymbol := fun _ => none
    getPkgNameSymbolByID := fun _ => none
    getPkgNameSymbol := fun _ => none
    getSymbolOfObject := fun _ => .ok none }

/-- The `*types.PkgName` entity of the first alias in
`import foo "a/b"` followed by `import bar "a/b"`. -/
def c10FooObj : Obj := ⟨"foo", 5, .pkgNameObj (some ⟨"a/b", "pid-ab"⟩), none⟩

/-- The `*types.PkgName` entity of the second alias for the same package. -/
def c10BarAliasObj : Obj := ⟨"bar", 15, .pkgNameObj (some ⟨"a/b", "pid-ab"⟩), none⟩

/-- The package occurrence seeding the C10 document. -/
def c10PkgOcc : Occurrence := ⟨[0, 0, 4], "pkgSym", symbolDefinition, []⟩

/-- Resolution data for two imports of one package under two aliases,
followed by a qualifier written with the first alias. -/
def c10Ctx : Ctx :=
  { strict := false
    posmap := fun p => ⟨1, p⟩
    defs := fun p =>
      if p = 5 then some c10FooObj
      else if p = 15 then some c10BarAliasObj
      else none
    uses := fun p =>
      if p = 30 then some c10FooObj
      else if p = 34 then some ⟨"Bar", 200, .otherObj, some "func()"⟩
      else none
    typeOf := fun _ => none
    caseClauses := []
    imports := fun s => if s = "a/b" then some ⟨"a/b", "pid-ab"⟩ else none
    pkgSymbols := fun _ => none
    globalGetSymbol := fun _ => none
    getPkgNameSymbolByID := fun _ => none
    getPkgNameSymbol := fun p => if p = "pid-ab" then some "abPkgNameSym" else none
    getSymbolOfObject := fun o => if o.name = "Bar" then .ok (some "BarSym") else .ok none }

/-- The file with both imports and the use `foo.Bar()` after them. -/
def c10File : Node :=
  .fileNode none
    [ .other
        [ .importSpec (some ("foo", 5)) "\"a/b\"" 9
        , .importSpec (some ("bar", 15)) "\"a/b\"" 19 ]
    , .other [.selector (.ident "foo" 30) (.ident "Bar" 34)] ]

/-! ## Helper lemmas -/

/-- Inserting a key that is absent from an association list grows it by
exactly one entry. -/
theorem insertA_length_of_fresh {α β : Type} [DecidableEq α] :
    ∀ (l : List (α × β)) (k : α) (v : β), lookupA l k = none →
      (insertA l k v).length = l.length + 1
  | [], _, _, _ => rfl
  | (k', v') :: rest, k, v, h => by
      simp only [lookupA] at h
      by_cases hk : k' = k
      · rw [if_pos hk] at h
        exact absurd h (by simp)
      · rw [if_neg hk] at h
        simp only [insertA, if_neg hk, List.length_cons]
        rw [insertA_length_of_fresh rest k v h]

/-- In lenient mode the reference block of the identifier arm never aborts:
it extends the occurrence list by a (possibly empty) tail containing no
definition occurrence. -/
theorem visitIdentRef_lenient (ctx : Ctx) (st1 : VState) (pos : Pos) (r : Obj)
    (hmode : ctx.strict = false) :
    ∃ st' tail, visitIdentRef ctx st1 pos r = .ok st' ∧
      st'.occurrences = st1.occurrences ++ tail ∧
      tail.filter isDefinitionOcc = [] := by
  unfold visitIdentRef
  rcases hloc : lookupA st1.locals r.pos with _ | loc
  · rcases hobj : ctx.getSymbolOfObject r with e | o
    · unfold errOrPanic
      rw [hmode]
      exact ⟨_, [], rfl, by simp, rfl⟩
    · rcases o with _ | s2
      · exact ⟨st1, [], rfl, by simp, rfl⟩
      · exact ⟨_, _, rfl, rfl, rfl⟩
  · exact ⟨_, _, rfl, rfl, rfl⟩

/-! ## Claims -/

/-- C1 (counterexample): the claim predicts, for a type switch
`switch v := x.(type)` with a `case *T` clause and a `default` clause, one
local definition occurrence of `v` per case clause, each minting a distinct
fresh local symbol — two definitions and two locals here.  Walking the
switch emits exactly one definition occurrence and mints exactly one local:
every per-case implicit object carries the guard's position, so the
case-clause override map collapses to a single entry and the guard
identifier is visited once. -/
theorem c1_claim_counterexample :
    (walk c1Ctx ⟨[], [], [], []⟩ c1SwitchNode).toOption.map
      (fun st => ((st.occurrences.filter isDefinitionOcc).length, st.locals.length)) =
    some (1, 1) := by rfl

/-- C1 (amended): visiting the two-clause type switch emits exactly one
local definition occurrence of `v`, at the guard binding, minting the single
fresh local `local 0` shared by all case clauses; and the reference to `v`
inside the `*T` case body carries an override-documentation line rendering
the narrowed type `*T`. -/
theorem c1_amended_theorem :
    (walk c1Ctx ⟨[], [], [], []⟩ c1SwitchNode).toOption.map
      (fun st => (st.occurrences.filter isDefinitionOcc,
                  st.occurrences.filter (fun o => o.range == [0, 29, 30]))) =
    some ([⟨[0, 9, 10], "local 0", symbolDefinition, []⟩],
          [⟨[0, 29, 30], "local 0", symbolReference, [FormatCode "*T"]⟩]) := by rfl

/-- C2 (counterexample): the claim predicts zero occurrences for every
identifier token named `_`, including the local name of an import
declaration.  Visiting `import _ "a/b"` emits one definition occurrence at
the blank name's range (the import arm only skips the dot, not the blank). -/
theorem c2_claim_counterexample :
    (walk c2Ctx ⟨[], [], [], []⟩ (.importSpec (some ("_", 5)) "\"a/b\"" 9)).toOption.map
      (fun st => st.occurrences.filter (fun o => o.range == [0, 4, 5])) =
    some [⟨[0, 4, 5], "local 0", symbolDefinition, []⟩] := by rfl

/-- C2 (amended): identifier tokens named `_` reached through the identifier
arm emit nothing, for every file state; in particular visiting `_ = x`
emits no occurrence for `_` and exactly one reference occurrence for `x`.
A blank import name is handled by the import arm instead, which does mint a
local and emits a definition occurrence for it. -/
theorem c2_amended_theorem :
    (∀ (ctx : Ctx) (st : VState) (p : Pos), walk ctx st (.ident "_" p) = .ok st) ∧
    (walk c2Ctx ⟨[], [], [], []⟩ (.other [.ident "_" 3, .ident "x" 7])).toOption.map
      VState.occurrences =
    some [⟨[0, 6, 7], "xSym", symbolReference, []⟩] :=
  ⟨fun _ _ _ => rfl, rfl⟩

/-- C3 (code bug): `ToScipDocument` copies the minted locals into the
document's symbols list by ranging over the Go map `v.locals`, whose
iteration order is unspecified; for a file with two minted locals, two valid
enumeration orders of the same state yield documents whose symbols lists
differ in order, so two runs on the same input need not be byte-identical. -/
theorem c3_document_order_nondeterminism :
    c3OrderA.Perm c3State.locals ∧ c3OrderB.Perm c3State.locals ∧
    ToScipDocument c3State "a.go" [] c3OrderA ≠ ToScipDocument c3State "a.go" [] c3OrderB :=
  ⟨by decide, by decide, by decide⟩

/-- C4 (code bug): when no tags point at `HEAD`, the tag listing is empty,
`strings.Split` still yields the single line `""`, the `len(lines) > 0`
branch returns it, and the commit-hash fallback is unreachable:
`InferModuleVersion` returns the empty string, not the 12-character prefix
of the `HEAD` commit hash that the claim (and the function's own doc
comment) require. -/
theorem c4_no_tags_returns_empty_version :
    InferModuleVersion "" none "0123456789abcdef0123456789abcdef01234567" none = .ok "" ∧
    String.mk ("0123456789abcdef0123456789abcdef01234567".data.take 12) ≠ "" :=
  ⟨rfl, by decide⟩

/-- C5 (counterexample): the claim quantifies over every identifier node
that `Defs` maps to an entity, but a blank identifier (which `go/types` does
record in `Defs`, e.g. for `_ := …`) is skipped before the definition map is
consulted: `Defs` maps position 5 to an entity, yet walking the blank
identifier emits no occurrence at all. -/
theorem c5_claim_counterexample :
    (c5Ctx.defs 5).isSome = true ∧
    walk c5Ctx ⟨[], [], [], []⟩ (.ident "_" 5) = .ok ⟨[], [], [], []⟩ :=
  ⟨rfl, rfl⟩

/-- C5 (amended): for every identifier node not named `_` and whose position
is not a case-clause override site, if `Defs` maps it to an entity then the
visitor emits exactly one definition occurrence, whose symbol is chosen by
the priority package-symbol-table / global-index / fresh-local
(`selectDefSymbol`); whatever the reference block appends afterwards
contains no further definition occurrence.  Stated in lenient mode, with the
referent's position fresh when a local must be minted. -/
theorem c5_amended_theorem (ctx : Ctx) (st : VState) (name : String) (pos : Pos) (d : Obj)
    (hname : name ≠ "_")
    (hcase : lookupA ctx.caseClauses pos = none)
    (hdef : ctx.defs pos = some d)
    (hmode : ctx.strict = false)
    (hfresh : ctx.pkgSymbols d.pos = none → ctx.globalGetSymbol d.pos = none →
              lookupA st.locals d.pos = none) :
    ∃ st' tail,
      walk ctx st (.ident name pos) = .ok st' ∧
      st'.occurrences =
        st.occurrences ++
          (⟨scipRange (ctx.posmap pos) d, selectDefSymbol ctx st d,
            symbolDefinition, []⟩ :: tail) ∧
      tail.filter isDefinitionOcc = [] := by
  have hwalk : walk ctx st (.ident name pos) = visitIdent ctx st name pos := rfl
  rw [hwalk]
  unfold visitIdent
  rw [if_neg hname]
  simp only [hcase, hdef]
  rcases hps : ctx.pkgSymbols d.pos with _ | s
  case some =>
    simp only [selectDefSymbol, hps]
    rcases hu : ctx.uses pos with _ | r
    · exact ⟨_, [], rfl, rfl, rfl⟩
    · obtain ⟨st', tail, h1, h2, h3⟩ :=
        visitIdentRef_lenient ctx (newDefinition st s (scipRange (ctx.posmap pos) d)) pos r hmode
      refine ⟨st', tail, h1, ?_, h3⟩
      rw [h2]
      simp [newDefinition, List.append_assoc]
  case none =>
    rcases hg : ctx.globalGetSymbol d.pos with _ | s
    case some =>
      simp only [selectDefSymbol, hps, hg]
      rcases hu : ctx.uses pos with _ | r
      · exact ⟨_, [], rfl, rfl, rfl⟩
      · obtain ⟨st', tail, h1, h2, h3⟩ :=
          visitIdentRef_lenient ctx (newDefinition st s (scipRange (ctx.posmap pos) d)) pos r hmode
        refine ⟨st', tail, h1, ?_, h3⟩
        rw [h2]
        simp [newDefinition, List.append_assoc]
    case none =>
      have hfree : lookupA st.locals d.pos = none := hfresh hps hg
      simp only [selectDefSymbol, hps, hg, createNewLocalSymbol, hfree]
      rcases hu : ctx.uses pos with _ | r
      · exact ⟨_, [], rfl, rfl, rfl⟩
      · obtain ⟨st', tail, h1, h2, h3⟩ :=
          visitIdentRef_lenient ctx
            (newDefinition
              { st with locals :=
                  insertA st.locals d.pos ⟨"local " ++ toString st.locals.length, some d⟩ }
              ("local " ++ toString st.locals.length) (scipRange (ctx.posmap pos) d))
            pos r hmode
        refine ⟨st', tail, h1, ?_, h3⟩
        rw [h2]
        simp [newDefinition, List.append_assoc]

/-- Witness for C5 (amended): walking the ordinary identifier `y` at
position 6 emits its definition occurrence with the priority-chosen symbol. -/
theorem c5_amended_witness :
    ∃ st' tail,
      walk c5Ctx ⟨[], [], [], []⟩ (.ident "y" 6) = .ok st' ∧
      st'.occurrences =
        (⟨[], [], [], []⟩ : VState).occurrences ++
          (⟨scipRange (c5Ctx.posmap 6) ⟨"y", 6, .varObj, some "int"⟩,
            selectDefSymbol c5Ctx ⟨[], [], [], []⟩ ⟨"y", 6, .varObj, some "int"⟩,
            symbolDefinition, []⟩ :: tail) ∧
      tail.filter isDefinitionOcc = [] :=
  c5_amended_theorem c5Ctx ⟨[], [], [], []⟩ "y" 6 ⟨"y", 6, .varObj, some "int"⟩
    (by decide) rfl rfl rfl (fun _ _ => rfl)

/-- C6: for `import foo "a/b"` followed by `foo.Bar()`, the visitor emits a
definition occurrence of `local 0` at the alias `foo` on the import line, a
reference to the package-name symbol at the path literal, a reference to the
same `local 0` at the qualifier `foo` (the file-local override is consulted
before the global package-name symbol, which here is the distinct
`abGlobalQualifierSym` and is not emitted), and a reference to the global
symbol of `Bar` at the selector; the qualifier's identifier is never walked
as a value reference, so no further occurrence appears. -/
theorem c6_renamed_import_scenario :
    walk c6Ctx (NewFileVisitor c6PkgOcc) c6File =
      .ok ⟨[(5, ⟨"local 0", some c6FooObj⟩)],
           [("pid-ab", "local 0")],
           [c6PkgOcc,
            ⟨[0, 4, 7], "local 0", symbolDefinition, []⟩,
            ⟨[0, 9, 12], "abPkgNameSym", symbolReference, []⟩,
            ⟨[0, 29, 32], "local 0", symbolReference, []⟩,
            ⟨[0, 33, 36], "BarSym", symbolReference, []⟩],
           []⟩ := by rfl

/-- C7: when a selector qualifier resolves to a package name whose
`PackageID` has no file-local override and no package-name symbol in the
global index, the error handler is invoked; in lenient mode the error is
recorded, the qualifier's reference occurrence (and the selected name) is
skipped, the state is otherwise untouched, and the traversal of any
following sibling nodes continues from that state. -/
theorem c7_missing_pkgname_lenient_skip (ctx : Ctx) (st : VState)
    (xn : String) (xp : Pos) (sel : Node) (u : Obj) (r : PkgRef) (rest : List Node)
    (hmode : ctx.strict = false)
    (hu : ctx.uses xp = some u)
    (hk : u.kind = .pkgNameObj (some r))
    (hov : lookupA st.pkgNameOverride r.pkgID = none)
    (hg : ctx.getPkgNameSymbolByID r.pkgID = none) :
    walk ctx st (.selector (.ident xn xp) sel) =
      .ok ⟨st.locals, st.pkgNameOverride, st.occurrences,
           st.errors ++ ["Missing symbol for package: " ++ r.path]⟩ ∧
    walkList ctx st (.selector (.ident xn xp) sel :: rest) =
      walkList ctx
        ⟨st.locals, st.pkgNameOverride, st.occurrences,
         st.errors ++ ["Missing symbol for package: " ++ r.path]⟩ rest := by
  have h1 : walk ctx st (.selector (.ident xn xp) sel) =
      .ok ⟨st.locals, st.pkgNameOverride, st.occurrences,
           st.errors ++ ["Missing symbol for package: " ++ r.path]⟩ := by
    simp only [walk, hu, hk, hov, hg, errOrPanic, hmode, if_false, Bool.false_eq_true]
  refine ⟨h1, ?_⟩
  simp only [walkList, h1]

/-- Witness for C7: the qualifier `q.Z` over an unresolvable package name,
in lenient mode, from the empty state. -/
theorem c7_missing_pkgname_witness :
    walk c7Ctx ⟨[], [], [], []⟩ (.selector (.ident "q" 4) (.ident "Z" 6)) =
      .ok ⟨(⟨[], [], [], []⟩ : VState).locals, (⟨[], [], [], []⟩ : VState).pkgNameOverride,
           (⟨[], [], [], []⟩ : VState).occurrences,
           (⟨[], [], [], []⟩ : VState).errors ++ ["Missing symbol for package: " ++ "m/n"]⟩ ∧
    walkList c7Ctx ⟨[], [], [], []⟩ [.selector (.ident "q" 4) (.ident "Z" 6)] =
      walkList c7Ctx
        ⟨(⟨[], [], [], []⟩ : VState).locals, (⟨[], [], [], []⟩ : VState).pkgNameOverride,
         (⟨[], [], [], []⟩ : VState).occurrences,
         (⟨[], [], [], []⟩ : VState).errors ++ ["Missing symbol for package: " ++ "m/n"]⟩ [] :=
  c7_missing_pkgname_lenient_skip c7Ctx ⟨[], [], [], []⟩ "q" 4 (.ident "Z" 6)
    ⟨"q", 50, .pkgNameObj (some ⟨"m/n", "pid-mn"⟩), none⟩ ⟨"m/n", "pid-mn"⟩ []
    rfl rfl rfl rfl rfl

/-- C8: `createNewLocalSymbol` called at a position already present in the
file's locals map aborts the run; at a position not yet owned it never
aborts and returns `"local N"` where `N` is the number of locals already
minted, the map growing by exactly one entry — so local numbers in a file
are `0, 1, 2, …` in minting order. -/
theorem c8_createNewLocalSymbol_safety (st : VState) (pos : Pos) (obj : Option Obj) :
    ((lookupA st.locals pos).isSome = true →
      createNewLocalSymbol st pos obj =
        .error "Cannot create a new local symbol for an ident that has already been created") ∧
    (lookupA st.locals pos = none →
      ∃ st', createNewLocalSymbol st pos obj = .ok ("local " ++ toString st.locals.length, st') ∧
             st'.locals.length = st.locals.length + 1) := by
  constructor
  · intro h
    unfold createNewLocalSymbol
    rcases hl : lookupA st.locals pos with _ | v
    · rw [hl] at h
      exact absurd h (by simp)
    · rfl
  · intro h
    unfold createNewLocalSymbol
    rw [h]
    exact ⟨_, rfl, insertA_length_of_fresh st.locals pos _ h⟩

/-- Witness for C8: minting at an owned position aborts; minting at a fresh
position in a one-local state yields `"local 1"`. -/
theorem c8_createNewLocalSymbol_witness :
    createNewLocalSymbol ⟨[(7, ⟨"local 0", none⟩)], [], [], []⟩ 7 none =
        .error "Cannot create a new local symbol for an ident that has already been created" ∧
    ∃ st', createNewLocalSymbol ⟨[(7, ⟨"local 0", none⟩)], [], [], []⟩ 9 none =
        .ok ("local " ++ toString (VState.locals ⟨[(7, ⟨"local 0", none⟩)], [], [], []⟩).length, st') ∧
      st'.locals.length = (VState.locals ⟨[(7, ⟨"local 0", none⟩)], [], [], []⟩).length + 1 :=
  ⟨(c8_createNewLocalSymbol_safety ⟨[(7, ⟨"local 0", none⟩)], [], [], []⟩ 7 none).1 rfl,
   (c8_createNewLocalSymbol_safety ⟨[(7, ⟨"local 0", none⟩)], [], [], []⟩ 9 none).2 rfl⟩

/-- C9: for a local with a non-nil entity whose imported-package path, when
present, is non-empty (always so for a type-checked program),
`SignatureText` is the space-join, dropping empty components, of the
keyword (`const`/`var`/`import`/none), the entity's name, and the imported
package's path for package aliases or the entity's rendered static type
otherwise; for a nil entity it is the empty string. -/
theorem c9_signatureText_spec (l : Local) :
    (l.obj = none → Local.SignatureText l = "") ∧
    (∀ o : Obj, l.obj = some o →
      (∀ r : PkgRef, o.kind = .pkgNameObj (some r) → r.path ≠ "") →
      Local.SignatureText l =
        String.intercalate " "
          (([signatureKeyword o, o.name, signatureTail o]).filter (fun s => s ≠ ""))) := by
  constructor
  · intro h
    simp [Local.SignatureText, h]
  · intro o ho hpath
    obtain ⟨nm, ps, kd, ty⟩ := o
    cases kd with
    | constObj =>
        rcases ty with _ | ts
        · by_cases hn : nm = "" <;>
            simp [Local.SignatureText, ho, signatureKeyword, signatureTail, hn, List.filter]
        · by_cases hn : nm = "" <;> by_cases ht : ts = "" <;>
            simp [Local.SignatureText, ho, signatureKeyword, signatureTail, hn, ht, List.filter]
    | varObj =>
        rcases ty with _ | ts
        · by_cases hn : nm = "" <;>
            simp [Local.SignatureText, ho, signatureKeyword, signatureTail, hn, List.filter]
        · by_cases hn : nm = "" <;> by_cases ht : ts = "" <;>
            simp [Local.SignatureText, ho, signatureKeyword, signatureTail, hn, ht, List.filter]
    | otherObj =>
        rcases ty with _ | ts
        · by_cases hn : nm = "" <;>
            simp [Local.SignatureText, ho, signatureKeyword, signatureTail, hn, List.filter]
        · by_cases hn : nm = "" <;> by_cases ht : ts = "" <;>
            simp [Local.SignatureText, ho, signatureKeyword, signatureTail, hn, ht, List.filter]
    | pkgNameObj imported =>
        rcases imported with _ | r
        · by_cases hn : nm = "" <;>
            simp [Local.SignatureText, ho, signatureKeyword, signatureTail, hn, List.filter]
        · have hr : r.path ≠ "" := hpath r rfl
          by_cases hn : nm = "" <;>
            simp [Local.SignatureText, ho, signatureKeyword, signatureTail, hn, hr, List.filter]

/-- Witness for C9: the signature of a local bound to a variable `x` of
type `int`. -/
theorem c9_signatureText_witness :
    Local.SignatureText ⟨"local 0", some ⟨"x", 3, .varObj, some "int"⟩⟩ =
      String.intercalate " "
        (([signatureKeyword ⟨"x", 3, .varObj, some "int"⟩,
           Obj.name ⟨"x", 3, .varObj, some "int"⟩,
           signatureTail ⟨"x", 3, .varObj, some "int"⟩]).filter (fun s => s ≠ "")) :=
  (c9_signatureText_spec ⟨"local 0", some ⟨"x", 3, .varObj, some "int"⟩⟩).2
    ⟨"x", 3, .varObj, some "int"⟩ rfl (fun _ h => ObjKind.noConfusion h)

/-- C10: with `import foo "a/b"` and `import bar "a/b"` resolving to the
same `PackageID`, the second import's map assignment overwrites the first,
so the override map ends up holding only `local 1` (minted for `bar`), and
the qualifier `foo` of a selector visited after the second import is emitted
with `local 1` — resolving spec open question (i): the second alias does
override the first. -/
theorem c10_second_alias_overrides :
    walk c10Ctx (NewFileVisitor c10PkgOcc) c10File =
      .ok ⟨[(5, ⟨"local 0", some c10FooObj⟩), (15, ⟨"local 1", some c10BarAliasObj⟩)],
           [("pid-ab", "local 1")],
           [c10PkgOcc,
            ⟨[0, 4, 7], "local 0", symbolDefinition, []⟩,
            ⟨[0, 9, 12], "abPkgNameSym", symbolReference, []⟩,
            ⟨[0, 14, 17], "local 1", symbolDefinition, []⟩,
            ⟨[0, 19, 22], "abPkgNameSym", symbolReference, []⟩,
            ⟨[0, 29, 32], "local 1", symbolReference, []⟩,
            ⟨[0, 33, 36], "BarSym", symbolReference, []⟩],
           []⟩ := by rfl

end ScipGo
